import Mathlib

/-!
Shallow embedding of hotlcc/MoviePilot-Server (`main.py`), a FastAPI service
that aggregates plugin-install and subscription counters in a SQLite database
and fronts the two read endpoints with a third-party `cacheout` cache
(`StatisticCache = Cache(maxsize=100, ttl=1800)`).

The ORM helper classes `PluginStatistics` and `SubscribeStatistics` live in
`models.py`, which is not among the provided sources; their record-store
operations are modelled from the spec (see the `Modelled from the spec:` doc
comments).  Machine time is modelled as a natural number of seconds; the
Python float field `vote`, which is only ever stored and copied, is modelled
as a rational number.
-/

/-- Response body of the write endpoints: `{"message": "success"}`. -/
structure Resp where
  message : String
deriving DecidableEq

/-- A row of the `PluginStatistics` table: `plugin_id` (the identity) and
`count`. -/
structure PluginRow where
  plugin_id : String
  count : Int
deriving DecidableEq

/-- The plugin table, rows in insertion order. -/
abbrev PluginDB := List PluginRow

/-- Modelled from the spec: `PluginStatistics.read` lives in `models.py`,
absent from the sources; per the spec a point lookup by identity. -/
def pluginRead (db : PluginDB) (pid : String) : Option PluginRow :=
  db.find? (fun r => r.plugin_id == pid)

/-- Modelled from the spec: `PluginStatistics.create` lives in `models.py`,
absent from the sources; inserts the row. -/
def pluginCreate (db : PluginDB) (r : PluginRow) : PluginDB :=
  db ++ [r]

/-- Modelled from the spec: `.update(db, {"count": c})` lives in `models.py`,
absent from the sources; update-by-identity of the `count` column. -/
def pluginUpdate (db : PluginDB) (pid : String) (c : Int) : PluginDB :=
  db.map (fun r => if r.plugin_id == pid then { r with count := c } else r)

/-- The `plugin_install` endpoint (`main.py` 87-104): look the row up; if
absent create it with `count = 1`, otherwise update it to `count + 1`; in both
cases respond `{"message": "success"}`. -/
def plugin_install (pid : String) (db : PluginDB) : Resp × PluginDB :=
  match pluginRead db pid with
  | none => (⟨"success"⟩, pluginCreate db ⟨pid, 1⟩)
  | some p => (⟨"success"⟩, pluginUpdate db pid (p.count + 1))

/-- The lookup phase of one `plugin_install` call: the row state it observes
(`main.py` 93). -/
def bumpRead (db : PluginDB) (pid : String) : Option Int :=
  (pluginRead db pid).map (fun r => r.count)

/-- The persist phase of one `plugin_install` call, applied with the count the
call observed during its own lookup phase (`main.py` 95-100). -/
def bumpWrite (db : PluginDB) (pid : String) : Option Int → PluginDB
  | none => pluginCreate db ⟨pid, 1⟩
  | some c => pluginUpdate db pid (c + 1)

/-- The interleaving of `n` concurrent `plugin_install pid` calls in which
every call runs its lookup phase against the initial state `db0` before any
call runs its persist phase. -/
def raceAllReadsFirst (db0 : PluginDB) (pid : String) (n : Nat) : PluginDB :=
  (List.range n).foldl (fun db _ => bumpWrite db pid (bumpRead db0 pid)) db0

/-- `n` back-to-back sequential `plugin_install pid` calls. -/
def seqInstalls (db0 : PluginDB) (pid : String) (n : Nat) : PluginDB :=
  (List.range n).foldl (fun db _ => (plugin_install pid db).2) db0

/-- The persisted count of `pid`, as the next lookup would observe it. -/
def persistedCount (db : PluginDB) (pid : String) : Option Int :=
  (pluginRead db pid).map (fun r => r.count)

/-- List fact used throughout: appending a single element to a list on which a
search fails makes the search decide on that element. -/
theorem find?_append_single {α : Type} (p : α → Bool) (l : List α) (a : α)
    (h : l.find? p = none) :
    (l ++ [a]).find? p = if p a then some a else none := by
  induction l with
  | nil => cases hpa : p a <;> simp [List.find?, hpa]
  | cons b t ih =>
    rw [List.find?_cons] at h
    rw [List.cons_append, List.find?_cons]
    cases hb : p b with
    | true => simp [hb] at h
    | false =>
      simp only [hb] at h ⊢
      exact ih h

/-- List fact used throughout: a key-preserving in-place update of the found
element is what the next search by the same key returns. -/
theorem find?_map_update {α : Type} (key : α → String) (upd : α → α) (k : String)
    (hk : ∀ a, key (upd a) = key a)
    (l : List α) (e : α) (h : l.find? (fun x => key x == k) = some e) :
    (l.map (fun x => if key x == k then upd x else x)).find? (fun x => key x == k)
      = some (upd e) := by
  induction l with
  | nil => simp [List.find?] at h
  | cons b t ih =>
    rw [List.find?_cons] at h
    rw [List.map_cons, List.find?_cons]
    cases hb : (key b == k) with
    | true =>
      simp only [hb] at h
      simp only [Option.some.injEq] at h
      subst h
      simp [hb, hk]
    | false =>
      simp only [hb] at h
      simp only [Bool.false_eq_true, if_false, hb]
      exact ih h

/-- Creating an absent plugin row is seen by the next lookup. -/
theorem pluginRead_create (db : PluginDB) (pid : String) (c : Int)
    (h : pluginRead db pid = none) :
    pluginRead (pluginCreate db ⟨pid, c⟩) pid = some ⟨pid, c⟩ := by
  unfold pluginRead pluginCreate
  rw [find?_append_single _ _ _ h]
  simp

/-- Updating a present plugin row's count is seen by the next lookup. -/
theorem pluginRead_update (db : PluginDB) (pid : String) (c : Int) (p : PluginRow)
    (h : pluginRead db pid = some p) :
    pluginRead (pluginUpdate db pid c) pid = some { p with count := c } := by
  unfold pluginRead at h
  unfold pluginRead pluginUpdate
  exact find?_map_update (fun r => r.plugin_id) (fun r => { r with count := c }) pid
    (fun a => rfl) db p h

/-- Branch lemma: a bump of an absent id creates the row with count 1. -/
theorem plugin_install_snd_none (pid : String) (db : PluginDB)
    (h : pluginRead db pid = none) :
    (plugin_install pid db).2 = pluginCreate db ⟨pid, 1⟩ := by
  simp [plugin_install, h]

/-- Branch lemma: a bump of a present id updates its count to one more. -/
theorem plugin_install_snd_some (pid : String) (db : PluginDB) (p : PluginRow)
    (h : pluginRead db pid = some p) :
    (plugin_install pid db).2 = pluginUpdate db pid (p.count + 1) := by
  simp [plugin_install, h]

/-- C1: the claimed per-identity mutual exclusion fails on the code.  The
endpoint's read-modify-write (`main.py` 93-100) carries no lock, atomic
increment or serializable transaction, so the interleaving in which ten
concurrent `plugin_install "x"` calls all run their lookup before any of them
persists leaves a final persisted count of 1, while ten serialized calls leave
10 — the lost-update anomaly the claim rules out. -/
theorem plugin_bump_lost_update :
    persistedCount (raceAllReadsFirst [] "x" 10) "x" = some 1 ∧
    persistedCount (seqInstalls [] "x" 10) "x" = some 10 := by decide

/-- C2 counterexample: `plugin_install` does not return the resulting count.
A first and a second bump of the same fresh id persist counts 1 and 2 but
return the identical value `{"message": "success"}`, so the returned value
cannot be the resulting count claimed. -/
theorem plugin_install_returns_no_count :
    (plugin_install "x" []).1 = (plugin_install "x" (plugin_install "x" []).2).1 ∧
    persistedCount (plugin_install "x" []).2 "x" = some 1 ∧
    persistedCount (plugin_install "x" (plugin_install "x" []).2).2 "x" = some 2 := by
  decide

/-- C2 (amended): `plugin_install` looks the row up by `pluginId`; if no row
exists it creates one with count 1, otherwise it increments the stored count
by 1 and persists it; in both cases it returns only the success message (the
resulting count is persisted, not returned), so a first bump of an unseen id
persists count 1 and a second bump persists count 2. -/
theorem plugin_install_spec (pid : String) (db : PluginDB) :
    (plugin_install pid db).1 = ⟨"success"⟩ ∧
    (pluginRead db pid = none →
      (plugin_install pid db).2 = pluginCreate db ⟨pid, 1⟩ ∧
      persistedCount (plugin_install pid db).2 pid = some 1 ∧
      persistedCount (plugin_install pid (plugin_install pid db).2).2 pid = some 2) ∧
    (∀ p, pluginRead db pid = some p →
      (plugin_install pid db).2 = pluginUpdate db pid (p.count + 1) ∧
      persistedCount (plugin_install pid db).2 pid = some (p.count + 1)) := by
  refine ⟨?_, ?_, ?_⟩
  · rcases h : pluginRead db pid with _ | p <;> simp [plugin_install, h]
  · intro h
    have h2 := plugin_install_snd_none pid db h
    have h3 : pluginRead (plugin_install pid db).2 pid = some ⟨pid, 1⟩ := by
      rw [h2]; exact pluginRead_create db pid 1 h
    refine ⟨h2, by simp [persistedCount, h3], ?_⟩
    have h4 := plugin_install_snd_some pid (plugin_install pid db).2 ⟨pid, 1⟩ h3
    rw [h4]
    have h5 := pluginRead_update (plugin_install pid db).2 pid
      ((⟨pid, 1⟩ : PluginRow).count + 1) ⟨pid, 1⟩ h3
    simp only [show ((⟨pid, 1⟩ : PluginRow).count + 1) = 2 from rfl] at h4 h5
    simp [persistedCount, h5]
  · intro p h
    have h2 := plugin_install_snd_some pid db p h
    have h3 := pluginRead_update db pid (p.count + 1) p h
    exact ⟨h2, by rw [h2]; simp [persistedCount, h3]⟩

/-- C2 witness: the amended statement applied at concrete inputs, with the
absent-row and present-row hypotheses discharged by computation. -/
theorem plugin_install_spec_witness :
    persistedCount (plugin_install "x" []).2 "x" = some 1 ∧
    persistedCount (plugin_install "y" [⟨"y", 4⟩]).2 "y" = some 5 :=
  ⟨((plugin_install_spec "x" []).2.1 (by decide)).2.1,
   by simpa using ((plugin_install_spec "y" [⟨"y", 4⟩]).2.2 ⟨"y", 4⟩ (by decide)).2⟩

/-- The body of a subscription report (the pydantic `SubscribeStatistic`
model, `main.py` 47-59); every field is optional and defaults to null. -/
structure SubPayload where
  name : Option String := none
  year : Option String := none
  type : Option String := none
  tmdbid : Option Int := none
  imdbid : Option String := none
  tvdbid : Option Int := none
  doubanid : Option String := none
  season : Option Int := none
  poster : Option String := none
  backdrop : Option String := none
  vote : Option Rat := none
  description : Option String := none
deriving DecidableEq

/-- A row of the `SubscribeStatistics` table: a store-assigned primary key
`id`, the descriptive attributes (including `bangumiid`, which exists only in
the table, `main.py` 203), and `count`. -/
structure SubRow where
  id : Nat
  name : Option String
  year : Option String
  type : Option String
  tmdbid : Option Int
  imdbid : Option String
  tvdbid : Option Int
  doubanid : Option String
  bangumiid : Option Int
  season : Option Int
  poster : Option String
  backdrop : Option String
  vote : Option Rat
  description : Option String
  count : Int
deriving DecidableEq

/-- The subscription table: rows in insertion order plus the next primary
key. -/
structure SubDB where
  rows : List SubRow
  nextId : Nat
deriving DecidableEq

/-- Python truthiness of an optional integer: `None` and `0` are falsy. -/
def truthyInt : Option Int → Bool
  | none => false
  | some n => n != 0

/-- The identity expression `subscribe.tmdbid or subscribe.doubanid`
(`main.py` 139 and 159): Python `or` yields the left operand when it is
truthy, otherwise the right operand as-is (possibly `None`). -/
def pyOr (t : Option Int) (d : Option String) : Option (Int ⊕ String) :=
  if truthyInt t then t.map Sum.inl else d.map Sum.inr

/-- The canonical media id a stored row answers to, with the same
precedence. -/
def SubRow.mid (r : SubRow) : Option (Int ⊕ String) :=
  pyOr r.tmdbid r.doubanid

/-- Modelled from the spec: `SubscribeStatistics.read(db, mid, season)` lives
in `models.py`, absent from the sources; per the spec a point lookup by the
identity `(mediaId, season)`. -/
def subRead (db : SubDB) (mid : Option (Int ⊕ String)) (season : Option Int) :
    Option SubRow :=
  db.rows.find? (fun r => decide (r.mid = mid ∧ r.season = season))

/-- The row built by `SubscribeStatistics(**subscribe.dict(), count=1)`
(`main.py` 142): the payload's attributes, `bangumiid` unset, `count = 1`,
primary key assigned by the store. -/
def rowOfPayload (p : SubPayload) (rid : Nat) : SubRow :=
  { id := rid, name := p.name, year := p.year, type := p.type,
    tmdbid := p.tmdbid, imdbid := p.imdbid, tvdbid := p.tvdbid,
    doubanid := p.doubanid, bangumiid := none, season := p.season,
    poster := p.poster, backdrop := p.backdrop, vote := p.vote,
    description := p.description, count := 1 }

/-- Modelled from the spec: `.create` lives in `models.py`, absent from the
sources; appends the new row and advances the primary key. -/
def subCreate (db : SubDB) (p : SubPayload) : SubDB :=
  ⟨db.rows ++ [rowOfPayload p db.nextId], db.nextId + 1⟩

/-- Modelled from the spec: `.update(db, {"count": c})` lives in `models.py`,
absent from the sources; update-by-primary-key of the `count` column. -/
def subUpdate (db : SubDB) (rid : Nat) (c : Int) : SubDB :=
  ⟨db.rows.map (fun q => if q.id == rid then { q with count := c } else q),
   db.nextId⟩

/-- Modelled from the spec: `.delete(db, id)` lives in `models.py`, absent
from the sources; delete-by-primary-key. -/
def subDelete (db : SubDB) (rid : Nat) : SubDB :=
  ⟨db.rows.filter (fun q => q.id != rid), db.nextId⟩

/-- The `subscribe_add` endpoint (`main.py` 133-150): resolve the identity,
look the row up; if absent create it with `count = 1`, otherwise update it to
`count + 1`; respond `{"message": "success"}`. -/
def subscribe_add (p : SubPayload) (db : SubDB) : Resp × SubDB :=
  match subRead db (pyOr p.tmdbid p.doubanid) p.season with
  | none => (⟨"success"⟩, subCreate db p)
  | some s => (⟨"success"⟩, subUpdate db s.id (s.count + 1))

/-- The `subscribe_done` endpoint (`main.py` 153-169): resolve the identity,
look the row up; absent rows are a no-op; a row with `count <= 1` is deleted,
otherwise its count is updated to `count - 1`; respond
`{"message": "success"}`. -/
def subscribe_done (p : SubPayload) (db : SubDB) : Resp × SubDB :=
  match subRead db (pyOr p.tmdbid p.doubanid) p.season with
  | none => (⟨"success"⟩, db)
  | some s =>
    if s.count ≤ 1 then (⟨"success"⟩, subDelete db s.id)
    else (⟨"success"⟩, subUpdate db s.id (s.count - 1))

/-- A report carrying only `tmdbid = 603`, `season = 1`. -/
def p603 : SubPayload :=
  { tmdbid := some 603, season := some 1 }

/-- A report carrying no catalog identifier at all. -/
def nullPayload : SubPayload := {}

/-- A first add against an empty store creates the row with count 1. -/
theorem subscribe_add_empty (p : SubPayload) :
    (subscribe_add p ⟨[], 0⟩).2 = ⟨[rowOfPayload p 0], 1⟩ := rfl

/-- The lookup after a first add finds the created row: its stored identity
is the identity the payload resolves to. -/
theorem subRead_single (p : SubPayload) :
    subRead ⟨[rowOfPayload p 0], 1⟩ (pyOr p.tmdbid p.doubanid) p.season
      = some (rowOfPayload p 0) := by
  unfold subRead
  rw [List.find?_cons_of_pos]
  simp [SubRow.mid, rowOfPayload]

/-- An add followed by a done against an empty store deletes the row. -/
theorem done_add_empty (p : SubPayload) :
    (subscribe_done p (subscribe_add p ⟨[], 0⟩).2).2 = ⟨[], 1⟩ := by
  rw [subscribe_add_empty]
  unfold subscribe_done
  rw [subRead_single]
  simp [rowOfPayload, subDelete]

/-- C3 counterexample: a report with neither `tmdbid` nor `doubanid` resolves
to the null identity, yet `subscribe_add` accepts it, touches persistence and
creates a row keyed by the null identity with count 1 — it is not rejected
with any error. -/
theorem subscribe_add_null_identity_accepted :
    pyOr nullPayload.tmdbid nullPayload.doubanid = none ∧
    (subscribe_add nullPayload ⟨[], 0⟩).1 = ⟨"success"⟩ ∧
    (subscribe_add nullPayload ⟨[], 0⟩).2.rows = [rowOfPayload nullPayload 0] ∧
    (rowOfPayload nullPayload 0).mid = none ∧
    (rowOfPayload nullPayload 0).count = 1 := by decide

/-- C3 (amended): when neither the numeric nor the secondary string catalog
ID is present, identity resolution yields the null identity and the report is
not rejected: `subscribe_add` succeeds and aggregates it under the null key,
creating a null-identity row with count 1 when absent and incrementing it when
present. -/
theorem subscribe_add_null_identity (p : SubPayload) (db : SubDB)
    (h : pyOr p.tmdbid p.doubanid = none) :
    (subscribe_add p db).1 = ⟨"success"⟩ ∧
    (subRead db none p.season = none →
      (subscribe_add p db).2 = subCreate db p ∧
      (rowOfPayload p db.nextId).mid = none) ∧
    (∀ s, subRead db none p.season = some s →
      (subscribe_add p db).2 = subUpdate db s.id (s.count + 1)) := by
  refine ⟨?_, ?_, ?_⟩
  · rcases h2 : subRead db none p.season with _ | s <;> simp [subscribe_add, h, h2]
  · intro h2
    constructor
    · simp [subscribe_add, h, h2]
    · simp [SubRow.mid, rowOfPayload, h]
  · intro s h2
    simp [subscribe_add, h, h2]

/-- C3 witness: the amended statement applied to the identifier-free report
against the empty store. -/
theorem subscribe_add_null_identity_witness :
    (subscribe_add nullPayload ⟨[], 0⟩).2 = subCreate ⟨[], 0⟩ nullPayload :=
  ((subscribe_add_null_identity nullPayload ⟨[], 0⟩ (by decide)).2.1 (by decide)).1

/-- C4 counterexample: `subscribe_done` does not return a deleted flag.  A
done on an absent identity (claimed to return `false`) and a done that deletes
the last row (claimed to return `true`) return the identical value
`{"message": "success"}`, so the return cannot be the claimed boolean. -/
theorem subscribe_done_returns_no_flag :
    (subscribe_done p603 ⟨[], 0⟩).1
      = (subscribe_done p603 (subscribe_add p603 ⟨[], 0⟩).2).1 ∧
    (subscribe_done p603 ⟨[], 0⟩).2 = ⟨[], 0⟩ ∧
    (subscribe_done p603 (subscribe_add p603 ⟨[], 0⟩).2).2.rows = [] := by decide

/-- C4 (amended): `subscribe_done` on an absent identity is a no-op; on a
present row with count ≤ 1 it deletes the row; on a present row with
count > 1 it decrements the count by 1 and persists it; in every case it
returns only the success message (no deleted flag).  Add then done leaves no
row, and a second done is a no-op. -/
theorem subscribe_done_spec (p : SubPayload) (db : SubDB) :
    (subscribe_done p db).1 = ⟨"success"⟩ ∧
    (subRead db (pyOr p.tmdbid p.doubanid) p.season = none →
      (subscribe_done p db).2 = db) ∧
    (∀ s, subRead db (pyOr p.tmdbid p.doubanid) p.season = some s →
      (s.count ≤ 1 → (subscribe_done p db).2 = subDelete db s.id) ∧
      (1 < s.count → (subscribe_done p db).2 = subUpdate db s.id (s.count - 1))) ∧
    (subscribe_done p (subscribe_add p ⟨[], 0⟩).2).2.rows = [] ∧
    (subscribe_done p (subscribe_done p (subscribe_add p ⟨[], 0⟩).2).2).2
      = (subscribe_done p (subscribe_add p ⟨[], 0⟩).2).2 := by
  refine ⟨?_, ?_, ?_, ?_, ?_⟩
  · rcases h : subRead db (pyOr p.tmdbid p.doubanid) p.season with _ | s
    · simp [subscribe_done, h]
    · rcases le_or_lt s.count 1 with hc | hc
      · simp [subscribe_done, h, hc]
      · simp [subscribe_done, h, not_le.mpr hc]
  · intro h
    simp [subscribe_done, h]
  · intro s h
    constructor
    · intro hc
      simp [subscribe_done, h, hc]
    · intro hc
      simp [subscribe_done, h, not_le.mpr hc]
  · rw [done_add_empty]
  · rw [done_add_empty]; rfl

/-- C4 witness: the amended statement applied at concrete inputs, with the
absent-row and delete-branch hypotheses discharged by computation. -/
theorem subscribe_done_spec_witness :
    (subscribe_done p603 ⟨[], 0⟩).2 = ⟨[], 0⟩ ∧
    (subscribe_done p603 (subscribe_add p603 ⟨[], 0⟩).2).2
      = subDelete (subscribe_add p603 ⟨[], 0⟩).2 (rowOfPayload p603 0).id :=
  ⟨(subscribe_done_spec p603 ⟨[], 0⟩).2.1 (by decide),
   ((subscribe_done_spec p603 (subscribe_add p603 ⟨[], 0⟩).2).2.2.1 (rowOfPayload p603 0)
      (by decide)).1 (by decide)⟩

/-- One operation of the subscription workflow. -/
inductive SubOp where
  | add (p : SubPayload)
  | done (p : SubPayload)

/-- Apply one workflow operation to the store. -/
def applyOp (db : SubDB) (op : SubOp) : SubDB :=
  match op with
  | .add p => (subscribe_add p db).2
  | .done p => (subscribe_done p db).2

/-- Run a sequence of workflow operations. -/
def runOps (ops : List SubOp) (db : SubDB) : SubDB :=
  ops.foldl applyOp db

/-- Every single operation preserves the count-at-least-one invariant. -/
theorem applyOp_inv (db : SubDB) (op : SubOp)
    (h : ∀ r ∈ db.rows, 1 ≤ r.count) :
    ∀ r ∈ (applyOp db op).rows, 1 ≤ r.count := by
  cases op with
  | add p =>
    show ∀ r ∈ (subscribe_add p db).2.rows, 1 ≤ r.count
    rcases h2 : subRead db (pyOr p.tmdbid p.doubanid) p.season with _ | s
    · intro r hr
      simp only [subscribe_add, h2, subCreate] at hr
      rcases List.mem_append.mp hr with hr2 | hr2
      · exact h r hr2
      · rw [List.mem_singleton] at hr2
        subst hr2
        simp [rowOfPayload]
    · have h3 := h2
      unfold subRead at h3
      have hs : 1 ≤ s.count := h s (List.mem_of_find?_eq_some h3)
      intro r hr
      simp only [subscribe_add, h2, subUpdate] at hr
      rcases List.mem_map.mp hr with ⟨q, hq, heq⟩
      by_cases hid : (q.id == s.id) = true
      · rw [if_pos hid] at heq
        rw [← heq]
        show (1 : Int) ≤ s.count + 1
        omega
      · rw [if_neg hid] at heq
        rw [← heq]
        exact h q hq
  | done p =>
    show ∀ r ∈ (subscribe_done p db).2.rows, 1 ≤ r.count
    rcases h2 : subRead db (pyOr p.tmdbid p.doubanid) p.season with _ | s
    · simp only [subscribe_done, h2]
      exact h
    · have h3 := h2
      unfold subRead at h3
      have hs : 1 ≤ s.count := h s (List.mem_of_find?_eq_some h3)
      by_cases hc : s.count ≤ 1
      · intro r hr
        simp only [subscribe_done, h2, if_pos hc, subDelete] at hr
        exact h r (List.mem_of_mem_filter hr)
      · intro r hr
        simp only [subscribe_done, h2, if_neg hc, subUpdate] at hr
        rcases List.mem_map.mp hr with ⟨q, hq, heq⟩
        by_cases hid : (q.id == s.id) = true
        · rw [if_pos hid] at heq
          rw [← heq]
          show (1 : Int) ≤ s.count - 1
          omega
        · rw [if_neg hid] at heq
          rw [← heq]
          exact h q hq

/-- A run of workflow operations preserves the invariant. -/
theorem runOps_inv (ops : List SubOp) (db : SubDB)
    (h : ∀ r ∈ db.rows, 1 ≤ r.count) :
    ∀ r ∈ (runOps ops db).rows, 1 ≤ r.count := by
  induction ops generalizing db with
  | nil => exact h
  | cons op t ih => exact ih (applyOp db op) (applyOp_inv db op h)

/-- C5: after any sequence of add/done operations starting from the empty
store, every existing row has count at least 1 — no state reachable by the
code (hence no persisted state) holds a row with count 0 or negative; where a
decrement would reach 0 the code deletes the row instead. -/
theorem sub_never_nonpositive (ops : List SubOp) :
    ∀ r ∈ (runOps ops ⟨[], 0⟩).rows, 1 ≤ r.count :=
  runOps_inv ops ⟨[], 0⟩ (by simp)

/-- C5 witness: the invariant evaluated after a single add. -/
theorem sub_never_nonpositive_witness :
    1 ≤ (rowOfPayload p603 0).count :=
  sub_never_nonpositive [SubOp.add p603] (rowOfPayload p603 0) (by decide)

/-- C6: when the reported identity already has a live row, `subscribe_add`
only changes that row's count (set to the found count plus 1); every
descriptive attribute of every row — name, year, type, the alternate catalog
IDs, artwork URLs, rating, synopsis — and every other row's count stay exactly
as stored, so the newly supplied attributes are never applied. -/
theorem subscribe_add_frame (p : SubPayload) (db : SubDB) (s : SubRow)
    (h : subRead db (pyOr p.tmdbid p.doubanid) p.season = some s) :
    (subscribe_add p db).1 = ⟨"success"⟩ ∧
    (subscribe_add p db).2.nextId = db.nextId ∧
    (subscribe_add p db).2.rows.length = db.rows.length ∧
    ∀ i : Nat, ∀ hi : i < db.rows.length,
      ∃ hi2 : i < (subscribe_add p db).2.rows.length,
        ((subscribe_add p db).2.rows.get ⟨i, hi2⟩).id = (db.rows.get ⟨i, hi⟩).id ∧
        ((subscribe_add p db).2.rows.get ⟨i, hi2⟩).name = (db.rows.get ⟨i, hi⟩).name ∧
        ((subscribe_add p db).2.rows.get ⟨i, hi2⟩).year = (db.rows.get ⟨i, hi⟩).year ∧
        ((subscribe_add p db).2.rows.get ⟨i, hi2⟩).type = (db.rows.get ⟨i, hi⟩).type ∧
        ((subscribe_add p db).2.rows.get ⟨i, hi2⟩).tmdbid = (db.rows.get ⟨i, hi⟩).tmdbid ∧
        ((subscribe_add p db).2.rows.get ⟨i, hi2⟩).imdbid = (db.rows.get ⟨i, hi⟩).imdbid ∧
        ((subscribe_add p db).2.rows.get ⟨i, hi2⟩).tvdbid = (db.rows.get ⟨i, hi⟩).tvdbid ∧
        ((subscribe_add p db).2.rows.get ⟨i, hi2⟩).doubanid = (db.rows.get ⟨i, hi⟩).doubanid ∧
        ((subscribe_add p db).2.rows.get ⟨i, hi2⟩).bangumiid = (db.rows.get ⟨i, hi⟩).bangumiid ∧
        ((subscribe_add p db).2.rows.get ⟨i, hi2⟩).season = (db.rows.get ⟨i, hi⟩).season ∧
        ((subscribe_add p db).2.rows.get ⟨i, hi2⟩).poster = (db.rows.get ⟨i, hi⟩).poster ∧
        ((subscribe_add p db).2.rows.get ⟨i, hi2⟩).backdrop = (db.rows.get ⟨i, hi⟩).backdrop ∧
        ((subscribe_add p db).2.rows.get ⟨i, hi2⟩).vote = (db.rows.get ⟨i, hi⟩).vote ∧
        ((subscribe_add p db).2.rows.get ⟨i, hi2⟩).description = (db.rows.get ⟨i, hi⟩).description ∧
        ((subscribe_add p db).2.rows.get ⟨i, hi2⟩).count
          = (if (db.rows.get ⟨i, hi⟩).id = s.id then s.count + 1
             else (db.rows.get ⟨i, hi⟩).count) := by
  have h2 : (subscribe_add p db).2 = subUpdate db s.id (s.count + 1) := by
    simp [subscribe_add, h]
  refine ⟨by simp [subscribe_add, h], by rw [h2]; rfl, ?_, ?_⟩
  · rw [h2]
    simp [subUpdate]
  · intro i hi
    rw [h2]
    refine ⟨by simpa [subUpdate] using hi, ?_⟩
    simp only [subUpdate, List.get_eq_getElem, List.getElem_map]
    by_cases hid : (db.rows[i].id == s.id) = true
    · simp [hid, beq_iff_eq.mp hid]
    · have hne : ¬ db.rows[i].id = s.id := by
        intro hcontra
        exact hid (beq_iff_eq.mpr hcontra)
      simp [hid, hne]

/-- A stored row used to witness the attribute-freeze policy. -/
def frameRow : SubRow :=
  { id := 7, name := some "old name", year := some "1999", type := some "movie",
    tmdbid := some 603, imdbid := some "tt0133093", tvdbid := none,
    doubanid := some "1291843", bangumiid := none, season := some 1,
    poster := some "poster-a", backdrop := none, vote := some 9,
    description := some "old synopsis", count := 3 }

/-- A later report for the same identity carrying different attributes. -/
def framePayload : SubPayload :=
  { name := some "new name", year := some "2003", type := some "movie",
    tmdbid := some 603, season := some 1, poster := some "poster-b",
    vote := some 8, description := some "new synopsis" }

/-- C6 witness: the frame theorem applied to a store holding one row for
tmdbid 603 season 1, reported again with different attributes; the stored
name survives. -/
theorem subscribe_add_frame_witness :
    ∃ h2 : 0 < (subscribe_add framePayload ⟨[frameRow], 8⟩).2.rows.length,
      ((subscribe_add framePayload ⟨[frameRow], 8⟩).2.rows.get ⟨0, h2⟩).name
        = frameRow.name := by
  obtain ⟨hi2, hrest⟩ :=
    (subscribe_add_frame framePayload ⟨[frameRow], 8⟩ frameRow (by decide)).2.2.2 0
      (by decide)
  exact ⟨hi2, hrest.2.1⟩

/-- Error raised by the listing query on bad pagination arguments. -/
inductive ListErr where
  | invalidPagination
deriving DecidableEq

/-- Modelled from the spec: `SubscribeStatistics.list(db, stype, page, count)`
lives in `models.py`, absent from the sources.  Per the spec: rows filtered by
the type discriminator, ordered deterministically by insertion/primary key,
1-indexed pagination, and failure with `InvalidPagination` on a non-positive
`page` or page size. -/
def subList (db : SubDB) (stype : String) (page cnt : Int) :
    Except ListErr (List SubRow) :=
  if page ≤ 0 ∨ cnt ≤ 0 then Except.error ListErr.invalidPagination
  else Except.ok
    (((db.rows.filter (fun r => r.type == some stype)).drop
        (((page - 1) * cnt).toNat)).take cnt.toNat)

/-- C7: the paginated, type-filtered subscription listing fails with
`InvalidPagination` whenever `page` or `pageSize` is not positive; for
positive arguments it returns the requested page — a subsequence of the rows
in insertion/primary-key order (hence deterministically ordered), all matching
the requested type. -/
theorem subList_spec (db : SubDB) (stype : String) (page cnt : Int) :
    ((page ≤ 0 ∨ cnt ≤ 0) →
      subList db stype page cnt = Except.error ListErr.invalidPagination) ∧
    (0 < page → 0 < cnt →
      ∃ l, subList db stype page cnt = Except.ok l ∧
        l.Sublist db.rows ∧
        (∀ r ∈ l, r.type = some stype) ∧
        l = ((db.rows.filter (fun r => r.type == some stype)).drop
              (((page - 1) * cnt).toNat)).take cnt.toNat) := by
  constructor
  · intro h
    simp [subList, h]
  · intro hp hc
    have h : ¬ (page ≤ 0 ∨ cnt ≤ 0) := by omega
    refine ⟨_, by simp [subList, h], ?_, ?_, rfl⟩
    · exact ((List.take_sublist _ _).trans (List.drop_sublist _ _)).trans
        (List.filter_sublist _)
    · intro r hr
      have hr2 : r ∈ db.rows.filter (fun r => r.type == some stype) :=
        List.mem_of_mem_drop (List.mem_of_mem_take hr)
      have := List.of_mem_filter hr2
      simpa using this

/-- C7 witness: the listing applied with a non-positive page (rejected) and
with valid arguments against a one-row store. -/
theorem subList_spec_witness :
    subList ⟨[], 0⟩ "movie" 0 30 = Except.error ListErr.invalidPagination ∧
    (∃ l, subList ⟨[frameRow], 8⟩ "movie" 1 30 = Except.ok l ∧
      l.Sublist (⟨[frameRow], 8⟩ : SubDB).rows ∧
      (∀ r ∈ l, r.type = some "movie") ∧
      l = (((⟨[frameRow], 8⟩ : SubDB).rows.filter
              (fun r => r.type == some "movie")).drop
            ((((1 : Int) - 1) * 30).toNat)).take (30 : Int).toNat) :=
  ⟨(subList_spec ⟨[], 0⟩ "movie" 0 30).1 (by decide),
   (subList_spec ⟨[frameRow], 8⟩ "movie" 1 30).2 (by decide) (by decide)⟩

/-- One slot of the statistics cache: key, stored value, absolute expiry
time. -/
structure TTLEntry (α : Type) where
  key : String
  value : α
  expiresAt : Nat
deriving DecidableEq

/-- Model of the third-party `cacheout.Cache` behind `StatisticCache`
(`main.py` 35: `Cache(maxsize=100, ttl=1800)`): a capacity- and TTL-bounded
key-value cache whose entries are kept in insertion order. -/
structure TTLCache (α : Type) where
  maxsize : Nat
  ttl : Nat
  entries : List (TTLEntry α)
deriving DecidableEq

/-- `cacheout.Cache.get`, value part: the stored value, or `none` when the
key is absent or its entry has expired; an entry is live strictly before its
expiry time and stale at or after it. -/
def TTLCache.getv {α : Type} (c : TTLCache α) (now : Nat) (k : String) :
    Option α :=
  match c.entries.find? (fun e => e.key == k) with
  | some e => if now < e.expiresAt then some e.value else none
  | none => none

/-- `cacheout.Cache.get`, state part: the get deletes the key's entry when it
finds it expired. -/
def TTLCache.getc {α : Type} (c : TTLCache α) (now : Nat) (k : String) :
    TTLCache α :=
  { c with entries :=
      c.entries.filter (fun e => !(e.key == k && decide (e.expiresAt ≤ now))) }

/-- `cacheout.Cache.set`: an existing key's entry is overwritten in place with
the new value and the fresh expiry `now + ttl`; a new key first evicts
oldest-inserted entries until the cache is below `maxsize`, then is
appended. -/
def TTLCache.set {α : Type} (c : TTLCache α) (now : Nat) (k : String) (v : α) :
    TTLCache α :=
  if (c.entries.find? (fun e => e.key == k)).isSome then
    { c with entries :=
        c.entries.map (fun e => if e.key == k then ⟨k, v, now + c.ttl⟩ else e) }
  else
    { c with entries :=
        (c.entries.drop (c.entries.length + 1 - c.maxsize)) ++ [⟨k, v, now + c.ttl⟩] }

/-- Well-formedness of a cache state: entry keys are pairwise distinct (a
dictionary-backed cache cannot hold the same key twice). -/
def TTLCache.wf {α : Type} (c : TTLCache α) : Prop :=
  (c.entries.map TTLEntry.key).Nodup

/-- The read-through pattern both statistic endpoints wrap around the cache
(`main.py` 125-130 and 192-212): `if not StatisticCache.get(key):` then load
and `StatisticCache.set(key, ...)`, and finally `return
StatisticCache.get(key)`.  The hit test is Python truthiness of the cached
value.  Returns the response value, the final cache state, and whether the
database loader ran. -/
def cachedFetch {α : Type} (c : TTLCache α) (now : Nat) (k : String) (load : α)
    (truthy : α → Bool) : Option α × TTLCache α × Bool :=
  let c1 := c.getc now k
  if (c.getv now k).elim false truthy then
    (c1.getv now k, c1.getc now k, false)
  else
    let c2 := c1.set now k load
    (c2.getv now k, c2.getc now k, true)

/-- The plugin statistic mapping `{plugin_id: count}` built by the loader at
`main.py` 126-129 from `PluginStatistics.list` (the list itself is modelled
from the spec as all rows in insertion order, `models.py` being absent). -/
def pluginMapOf (db : PluginDB) : List (String × Int) :=
  db.map (fun r => (r.plugin_id, r.count))

/-- The `plugin_statistic` endpoint (`main.py` 120-130): the read-through
pattern under the fixed key `"plugin"`, loading the plugin mapping from the
database. -/
def plugin_statistic (db : PluginDB) (c : TTLCache (List (String × Int)))
    (now : Nat) :
    Option (List (String × Int)) × TTLCache (List (String × Int)) × Bool :=
  cachedFetch c now "plugin" (pluginMapOf db) (fun m => !m.isEmpty)

/-- One element of the cached subscribe-statistic list: the dict built at
`main.py` 195-210 from a row — its attributes and count, without the primary
key. -/
structure SubStatOut where
  name : Option String
  year : Option String
  type : Option String
  tmdbid : Option Int
  imdbid : Option String
  tvdbid : Option Int
  doubanid : Option String
  bangumiid : Option Int
  season : Option Int
  poster : Option String
  backdrop : Option String
  vote : Option Rat
  description : Option String
  count : Int
deriving DecidableEq

/-- The dict built from one row (`main.py` 195-210). -/
def outOfRow (r : SubRow) : SubStatOut :=
  ⟨r.name, r.year, r.type, r.tmdbid, r.imdbid, r.tvdbid, r.doubanid,
   r.bangumiid, r.season, r.poster, r.backdrop, r.vote, r.description, r.count⟩

/-- The cache key `f"subscribe_{stype}_{page}_{count}"` (`main.py` 191). -/
def subKey (stype : String) (page cnt : Int) : String :=
  "subscribe_" ++ stype ++ "_" ++ toString page ++ "_" ++ toString cnt

/-- The `subscribe_statistic` endpoint (`main.py` 185-212): the read-through
pattern under the pagination-derived key; the loader is the modelled
`SubscribeStatistics.list`, whose failure propagates and leaves the cache
without a new entry. -/
def subscribe_statistic (stype : String) (page cnt : Int) (db : SubDB)
    (c : TTLCache (List SubStatOut)) (now : Nat) :
    Except ListErr (Option (List SubStatOut)) × TTLCache (List SubStatOut) × Bool :=
  let k := subKey stype page cnt
  let c1 := c.getc now k
  if (c.getv now k).elim false (fun l => !l.isEmpty) then
    (Except.ok (c1.getv now k), c1.getc now k, false)
  else
    match subList db stype page cnt with
    | Except.error e => (Except.error e, c1, true)
    | Except.ok rows =>
      let c2 := c1.set now k (rows.map outOfRow)
      (Except.ok (c2.getv now k), c2.getc now k, true)

/-- A found entry carries the searched key. -/
theorem TTLEntry.find?_key {α : Type} {l : List (TTLEntry α)} {k : String}
    {e : TTLEntry α} (h : l.find? (fun x => x.key == k) = some e) : e.key = k := by
  have := List.find?_some h
  simpa using this

/-- With pairwise distinct keys, an entry is determined by its key. -/
theorem keyUniq {α : Type} {l : List (TTLEntry α)}
    (hN : (l.map TTLEntry.key).Nodup) {x y : TTLEntry α}
    (hx : x ∈ l) (hy : y ∈ l) (hk : x.key = y.key) : x = y := by
  induction l with
  | nil => cases hx
  | cons a t ih =>
    rw [List.map_cons, List.nodup_cons] at hN
    rcases List.mem_cons.mp hx with rfl | hx2
    · rcases List.mem_cons.mp hy with rfl | hy2
      · rfl
      · exact absurd (hk ▸ List.mem_map_of_mem TTLEntry.key hy2) hN.1
    · rcases List.mem_cons.mp hy with rfl | hy2
      · exact absurd (hk ▸ List.mem_map_of_mem TTLEntry.key hx2) hN.1
      · exact ih hN.2 hx2 hy2

/-- The expiry sweep of a get keeps every entry when the key's entries are
all live. -/
theorem filter_keep_live {α : Type} {l : List (TTLEntry α)} {k : String} {now : Nat}
    (h : ∀ x ∈ l, (x.key == k) = true → now < x.expiresAt) :
    l.filter (fun e => !(e.key == k && decide (e.expiresAt ≤ now))) = l := by
  rw [List.filter_eq_self]
  intro a ha
  by_cases hk : (a.key == k) = true
  · have := h a ha hk
    simp [hk, this]
  · simp only [Bool.not_eq_true] at hk
    simp [hk]

/-- A successful get comes from a live entry holding the returned value. -/
theorem getv_some_live {α : Type} {c : TTLCache α} {now : Nat} {k : String} {v : α}
    (h : c.getv now k = some v) :
    ∃ e, c.entries.find? (fun x => x.key == k) = some e ∧
      e.value = v ∧ now < e.expiresAt := by
  unfold TTLCache.getv at h
  rcases hf : c.entries.find? (fun x => x.key == k) with _ | e
  · rw [hf] at h
    exact absurd h (by simp)
  · rw [hf] at h
    have h2 : (if now < e.expiresAt then some e.value else none) = some v := h
    by_cases hl : now < e.expiresAt
    · rw [if_pos hl] at h2
      exact ⟨e, hf, by simpa using h2, hl⟩
    · rw [if_neg hl] at h2
      exact absurd h2 (by simp)

/-- A get that hits a live entry leaves the cache unchanged. -/
theorem getc_live {α : Type} {c : TTLCache α} {now : Nat} {k : String} {v : α}
    (hN : c.wf) (h : c.getv now k = some v) : c.getc now k = c := by
  obtain ⟨e, hf, hv, hl⟩ := getv_some_live h
  have he : e ∈ c.entries := List.mem_of_find?_eq_some hf
  have hek : e.key = k := TTLEntry.find?_key hf
  unfold TTLCache.getc
  rw [filter_keep_live]
  · intro x hx hxk
    have : x = e := keyUniq hN hx he (by rw [hek]; exact beq_iff_eq.mp hxk)
    rw [this]
    exact hl

/-- Overwriting the found entry in place is what the next search returns. -/
theorem find?_map_const {α : Type} {k : String} {fresh : TTLEntry α}
    (hfk : (fresh.key == k) = true) (l : List (TTLEntry α)) (e : TTLEntry α)
    (h : l.find? (fun x => x.key == k) = some e) :
    (l.map (fun x => if x.key == k then fresh else x)).find? (fun x => x.key == k)
      = some fresh := by
  induction l with
  | nil => simp [List.find?] at h
  | cons b t ih =>
    rw [List.find?_cons] at h
    rw [List.map_cons, List.find?_cons]
    cases hb : (b.key == k) with
    | true => simp [hb, hfk]
    | false =>
      simp only [hb] at h
      simp only [Bool.false_eq_true, if_false, hb]
      exact ih h

/-- The get is determined by the entry the search finds. -/
theorem getv_find? {α : Type} (c : TTLCache α) (now : Nat) (k : String)
    {e : TTLEntry α} (h : c.entries.find? (fun x => x.key == k) = some e) :
    c.getv now k = if now < e.expiresAt then some e.value else none := by
  unfold TTLCache.getv
  rw [h]

/-- After a set, every entry under the written key is the freshly written
one. -/
theorem set_unique {α : Type} (d : TTLCache α) (now : Nat) (k : String) (v : α) :
    ∀ x ∈ (d.set now k v).entries, (x.key == k) = true →
      x = ⟨k, v, now + d.ttl⟩ := by
  intro x hx hxk
  unfold TTLCache.set at hx
  by_cases hf : (d.entries.find? (fun e => e.key == k)).isSome
  · rw [if_pos hf] at hx
    have hx2 : x ∈ d.entries.map
        (fun e => if e.key == k then ⟨k, v, now + d.ttl⟩ else e) := hx
    rcases List.mem_map.mp hx2 with ⟨q, hq, heq⟩
    by_cases hqk : (q.key == k) = true
    · rw [if_pos hqk] at heq
      exact heq.symm
    · rw [if_neg hqk] at heq
      rw [← heq] at hxk
      exact absurd hxk hqk
  · rw [if_neg hf] at hx
    have hx2 : x ∈ d.entries.drop (d.entries.length + 1 - d.maxsize)
        ++ [⟨k, v, now + d.ttl⟩] := hx
    rcases List.mem_append.mp hx2 with hd | hs
    · have hnone := List.find?_eq_none.mp (Option.not_isSome_iff_eq_none.mp hf)
      exact absurd hxk (hnone x (List.mem_of_mem_drop hd))
    · rw [List.mem_singleton] at hs
      exact hs

/-- A get followed by a set installs the fresh entry as the one the next
search finds. -/
theorem set_after_getc {α : Type} (c : TTLCache α) (now : Nat) (k : String)
    (v : α) (hN : c.wf) :
    ((c.getc now k).set now k v).entries.find? (fun e => e.key == k)
      = some ⟨k, v, now + c.ttl⟩ := by
  rcases hf : c.entries.find? (fun e => e.key == k) with _ | e
  · have hall := List.find?_eq_none.mp hf
    have hgetc : c.getc now k = c := by
      unfold TTLCache.getc
      rw [filter_keep_live]
      intro x hx hxk
      exact absurd hxk (hall x hx)
    rw [hgetc]
    unfold TTLCache.set
    simp only [hf, Option.isSome_none, Bool.false_eq_true, if_false]
    have hf3 : (c.entries.drop (c.entries.length + 1 - c.maxsize)).find?
        (fun x => x.key == k) = none :=
      List.find?_eq_none.mpr (fun x hx => hall x (List.mem_of_mem_drop hx))
    have := find?_append_single (fun x => x.key == k) _
      (⟨k, v, now + c.ttl⟩ : TTLEntry α) hf3
    rw [this]
    simp
  · by_cases hl : now < e.expiresAt
    · have hv : c.getv now k = some e.value := by
        rw [getv_find? c now k hf, if_pos hl]
      have hgetc := getc_live hN hv
      rw [hgetc]
      unfold TTLCache.set
      simp only [hf, Option.isSome_some, if_true]
      exact find?_map_const (by simp) c.entries e hf
    · have hnone : ∀ x ∈ (c.getc now k).entries, ¬ ((x.key == k) = true) := by
        intro x hx hxk
        have hx2 := List.mem_of_mem_filter hx
        have hcond := List.of_mem_filter hx
        have hek : e.key = k := TTLEntry.find?_key hf
        have hxe : x = e := keyUniq hN hx2 (List.mem_of_find?_eq_some hf)
          (by rw [hek]; exact beq_iff_eq.mp hxk)
        rw [hxe] at hcond
        have hle : e.expiresAt ≤ now := Nat.le_of_not_lt hl
        simp [hek, hle] at hcond
      have hf2 : (c.getc now k).entries.find? (fun x => x.key == k) = none :=
        List.find?_eq_none.mpr hnone
      unfold TTLCache.set
      simp only [hf2, Option.isSome_none, Bool.false_eq_true, if_false]
      have hf3 : ((c.getc now k).entries.drop
          ((c.getc now k).entries.length + 1 - (c.getc now k).maxsize)).find?
          (fun x => x.key == k) = none :=
        List.find?_eq_none.mpr (fun x hx => hnone x (List.mem_of_mem_drop hx))
      have := find?_append_single (fun x => x.key == k) _
        (⟨k, v, now + (c.getc now k).ttl⟩ : TTLEntry α) hf3
      rw [this]
      simp [TTLCache.getc]

/-- Hit path of the read-through pattern: a live, truthy stored value is
returned as-is, the loader does not run, the cache is unchanged. -/
theorem cachedFetch_hit {α : Type} {c : TTLCache α} {now : Nat} {k : String}
    {v : α} (load : α) (truthy : α → Bool) (hN : c.wf)
    (hv : c.getv now k = some v) (ht : truthy v = true) :
    cachedFetch c now k load truthy = (some v, c, false) := by
  have hgetc := getc_live hN hv
  unfold cachedFetch
  simp only [hv, Option.elim, ht, if_true, hgetc]

/-- Miss path of the read-through pattern: when the stored value is absent,
expired or falsy, the loader runs and its result is stored under the key with
a fresh TTL and returned. -/
theorem cachedFetch_miss {α : Type} {c : TTLCache α} {now : Nat} {k : String}
    (load : α) (truthy : α → Bool) (hN : c.wf) (htt : 0 < c.ttl)
    (hm : (c.getv now k).elim false truthy = false) :
    (cachedFetch c now k load truthy).1 = some load ∧
    (cachedFetch c now k load truthy).2.2 = true ∧
    (cachedFetch c now k load truthy).2.1.entries.find? (fun e => e.key == k)
      = some ⟨k, load, now + c.ttl⟩ := by
  have hsplit : cachedFetch c now k load truthy
      = (((c.getc now k).set now k load).getv now k,
         (((c.getc now k).set now k load)).getc now k, true) := by
    unfold cachedFetch
    simp only [hm, Bool.false_eq_true, if_false]
  have hfind := set_after_getc c now k load hN
  have hkeep : ∀ x ∈ ((c.getc now k).set now k load).entries,
      (x.key == k) = true → now < x.expiresAt := by
    intro x hx hxk
    have hxf := set_unique (c.getc now k) now k load x hx hxk
    rw [hxf]
    show now < now + c.ttl
    omega
  have hgc : (((c.getc now k).set now k load)).getc now k
      = ((c.getc now k).set now k load) := by
    show { ((c.getc now k).set now k load) with
        entries := ((c.getc now k).set now k load).entries.filter
          (fun e => !(e.key == k && decide (e.expiresAt ≤ now))) }
      = ((c.getc now k).set now k load)
    rw [filter_keep_live hkeep]
  rw [hsplit]
  refine ⟨?_, rfl, ?_⟩
  · rw [getv_find? ((c.getc now k).set now k load) now k hfind]
    have hlt : now < (⟨k, load, now + c.ttl⟩ : TTLEntry α).expiresAt := by
      show now < now + c.ttl
      omega
    rw [if_pos hlt]
  · show ((((c.getc now k).set now k load)).getc now k).entries.find?
        (fun e => e.key == k) = some ⟨k, load, now + c.ttl⟩
    rw [hgc]
    exact hfind

/-- Once a falsy value is stored under a key, any later read-through call
for that key runs the loader again. -/
theorem flag_of_stored {α : Type} {c : TTLCache α} {k : String} {v : α}
    {T : Nat} (load2 : α) (truthy : α → Bool)
    (hf : c.entries.find? (fun e => e.key == k) = some ⟨k, v, T⟩)
    (ht : truthy v = false) (now2 : Nat) :
    (cachedFetch c now2 k load2 truthy).2.2 = true := by
  have hg := getv_find? c now2 k hf
  have hm : (c.getv now2 k).elim false truthy = false := by
    rw [hg]
    by_cases hlt : now2 < T
    · simp only [if_pos (show now2 < (⟨k, v, T⟩ : TTLEntry α).expiresAt from hlt)]
      simpa using ht
    · simp only [if_neg (show ¬ now2 < (⟨k, v, T⟩ : TTLEntry α).expiresAt from hlt)]
      rfl
  unfold cachedFetch
  simp only [hm, Bool.false_eq_true, if_false]

/-- Insert a sequence of key-value pairs, as consecutive sets. -/
def insertAll {α : Type} (c : TTLCache α) (now : Nat)
    (kvs : List (String × α)) : TTLCache α :=
  kvs.foldl (fun d kv => d.set now kv.1 kv.2) c

/-- A set never changes the configured capacity. -/
theorem set_maxsize {α : Type} (d : TTLCache α) (now : Nat) (k : String) (v : α) :
    (d.set now k v).maxsize = d.maxsize := by
  unfold TTLCache.set
  split <;> rfl

/-- A set never changes the configured TTL. -/
theorem set_ttl {α : Type} (d : TTLCache α) (now : Nat) (k : String) (v : α) :
    (d.set now k v).ttl = d.ttl := by
  unfold TTLCache.set
  split <;> rfl

/-- A get misses when the search finds nothing. -/
theorem getv_none {α : Type} (c : TTLCache α) (now : Nat) (k : String)
    (h : c.entries.find? (fun e => e.key == k) = none) :
    c.getv now k = none := by
  unfold TTLCache.getv
  rw [h]

/-- Setting a fresh key with room to spare appends the entry. -/
theorem set_fresh_append {α : Type} (c : TTLCache α) (now : Nat) (kv : String × α)
    (hfresh : c.entries.find? (fun e => e.key == kv.1) = none)
    (hroom : c.entries.length + 1 ≤ c.maxsize) :
    (c.set now kv.1 kv.2).entries = c.entries ++ [⟨kv.1, kv.2, now + c.ttl⟩] := by
  unfold TTLCache.set
  simp only [hfresh, Option.isSome_none, Bool.false_eq_true, if_false]
  have hd : c.entries.length + 1 - c.maxsize = 0 := by omega
  rw [hd, List.drop_zero]

/-- Inserting fresh, distinct keys that fit within capacity appends them in
order with expiry `now + ttl`. -/
theorem insertAll_fresh {α : Type} (now : Nat) :
    ∀ (kvs : List (String × α)) (c : TTLCache α),
      ((c.entries.map TTLEntry.key) ++ kvs.map Prod.fst).Nodup →
      c.entries.length + kvs.length ≤ c.maxsize →
      (insertAll c now kvs).entries
          = c.entries ++ kvs.map (fun kv => ⟨kv.1, kv.2, now + c.ttl⟩) ∧
        (insertAll c now kvs).ttl = c.ttl ∧
        (insertAll c now kvs).maxsize = c.maxsize := by
  intro kvs
  induction kvs with
  | nil =>
    intro c h1 h2
    exact ⟨by simp [insertAll], rfl, rfl⟩
  | cons kv t ih =>
    intro c h1 h2
    have hdis := (List.nodup_append.mp h1).2.2
    have hkv : kv.1 ∉ c.entries.map TTLEntry.key := by
      intro hmem
      exact hdis hmem (List.mem_cons_self _ _)
    have hfresh : c.entries.find? (fun e => e.key == kv.1) = none := by
      apply List.find?_eq_none.mpr
      intro x hx hxk
      exact hkv (List.mem_map.mpr ⟨x, hx, beq_iff_eq.mp hxk⟩)
    have hset : (c.set now kv.1 kv.2).entries
        = c.entries ++ [⟨kv.1, kv.2, now + c.ttl⟩] := by
      apply set_fresh_append
      · exact hfresh
      · simp at h2
        omega
    have hkeys : ((c.set now kv.1 kv.2).entries.map TTLEntry.key ++ t.map Prod.fst).Nodup := by
      rw [hset, List.map_append, List.append_assoc]
      simpa using h1
    have hlen : (c.set now kv.1 kv.2).entries.length + t.length
        ≤ (c.set now kv.1 kv.2).maxsize := by
      rw [hset, set_maxsize]
      simp at h2 ⊢
      omega
    obtain ⟨he, ht, hm⟩ := ih (c.set now kv.1 kv.2) hkeys hlen
    refine ⟨?_, ?_, ?_⟩
    · show (insertAll (c.set now kv.1 kv.2) now t).entries = _
      rw [he, hset, set_ttl, List.append_assoc]
      rfl
    · show (insertAll (c.set now kv.1 kv.2) now t).ttl = c.ttl
      rw [ht, set_ttl]
    · show (insertAll (c.set now kv.1 kv.2) now t).maxsize = c.maxsize
      rw [hm, set_maxsize]

/-- Setting a fresh key evicts oldest-inserted entries down to below
capacity, then appends the entry. -/
theorem set_evict_append {α : Type} (c : TTLCache α) (now : Nat) (k : String)
    (v : α) (hfresh : c.entries.find? (fun e => e.key == k) = none) :
    (c.set now k v).entries
      = c.entries.drop (c.entries.length + 1 - c.maxsize)
        ++ [⟨k, v, now + c.ttl⟩] := by
  unfold TTLCache.set
  simp only [hfresh, Option.isSome_none, Bool.false_eq_true, if_false]

/-- C9: inserting capacity + 1 distinct keys into an empty cache (capacity
fixed at construction) leaves exactly capacity live entries; the single
evicted key is the first-inserted one, which in this insertion-only workload
is the least-recently-used key. -/
theorem cache_capacity_boundary {α : Type} (cap ttl now : Nat)
    (kvs : List (String × α)) (hcap : 0 < cap) (httl : 0 < ttl)
    (hnd : (kvs.map Prod.fst).Nodup) (hlen : kvs.length = cap + 1) :
    (insertAll ⟨cap, ttl, []⟩ now kvs).entries
      = (kvs.drop 1).map (fun kv => ⟨kv.1, kv.2, now + ttl⟩) ∧
    (insertAll ⟨cap, ttl, []⟩ now kvs).entries.length = cap ∧
    (∀ e ∈ (insertAll ⟨cap, ttl, []⟩ now kvs).entries, now < e.expiresAt) ∧
    (∀ kv ∈ kvs.take 1, (insertAll ⟨cap, ttl, []⟩ now kvs).getv now kv.1 = none) := by
  have hne : kvs ≠ [] := by
    intro h
    rw [h] at hlen
    simp at hlen
  have hsplit : kvs.dropLast ++ [kvs.getLast hne] = kvs :=
    List.dropLast_append_getLast hne
  have hinitlen : kvs.dropLast.length = cap := by
    rw [List.length_dropLast, hlen]
    omega
  have hstep : insertAll (⟨cap, ttl, []⟩ : TTLCache α) now kvs
      = ((insertAll ⟨cap, ttl, []⟩ now kvs.dropLast).set now
          (kvs.getLast hne).1 (kvs.getLast hne).2) := by
    conv_lhs => rw [← hsplit]
    unfold insertAll
    rw [List.foldl_append]
    rfl
  have hndSplit : ((kvs.dropLast.map Prod.fst) ++ [(kvs.getLast hne).1]).Nodup := by
    have h2 : kvs.map Prod.fst = kvs.dropLast.map Prod.fst ++ [(kvs.getLast hne).1] := by
      conv_lhs => rw [← hsplit]
      rw [List.map_append]
      rfl
    rw [h2] at hnd
    exact hnd
  obtain ⟨hce, hct, hcm⟩ := insertAll_fresh now kvs.dropLast ⟨cap, ttl, []⟩
    (by simpa using (List.nodup_append.mp hndSplit).1)
    (by simp [hinitlen])
  have hce2 : (insertAll (⟨cap, ttl, []⟩ : TTLCache α) now kvs.dropLast).entries
      = kvs.dropLast.map (fun kv => ⟨kv.1, kv.2, now + ttl⟩) := by
    simpa using hce
  have hfreshlst : (insertAll (⟨cap, ttl, []⟩ : TTLCache α) now kvs.dropLast).entries.find?
      (fun e => e.key == (kvs.getLast hne).1) = none := by
    apply List.find?_eq_none.mpr
    intro x hx hxk
    rw [hce2] at hx
    rcases List.mem_map.mp hx with ⟨q, hq, rfl⟩
    have hd := (List.nodup_append.mp hndSplit).2.2
    refine hd (List.mem_map_of_mem Prod.fst hq) ?_
    have hqk : q.1 = (kvs.getLast hne).1 := beq_iff_eq.mp hxk
    rw [hqk]
    exact List.mem_singleton_self _
  have hfin : (insertAll (⟨cap, ttl, []⟩ : TTLCache α) now kvs).entries
      = (kvs.drop 1).map (fun kv => ⟨kv.1, kv.2, now + ttl⟩) := by
    rw [hstep, set_evict_append _ _ _ _ hfreshlst, hce2, hct, hcm]
    have hlm : (kvs.dropLast.map
        (fun kv => (⟨kv.1, kv.2, now + ttl⟩ : TTLEntry α))).length = cap := by
      rw [List.length_map, hinitlen]
    rw [hlm]
    have h1 : cap + 1 - (⟨cap, ttl, []⟩ : TTLCache α).maxsize = 1 := by
      show cap + 1 - cap = 1
      omega
    rw [h1]
    have hdropkvs : kvs.drop 1 = kvs.dropLast.drop 1 ++ [kvs.getLast hne] := by
      conv_lhs => rw [← hsplit]
      rw [List.drop_append_of_le_length (by omega)]
    rw [hdropkvs, List.map_append, ← List.map_drop]
    rfl
  refine ⟨hfin, ?_, ?_, ?_⟩
  · rw [hfin, List.length_map, List.length_drop, hlen]
    omega
  · intro e he
    rw [hfin] at he
    rcases List.mem_map.mp he with ⟨q, hq, rfl⟩
    show now < now + ttl
    omega
  · intro kv hkv
    apply getv_none
    apply List.find?_eq_none.mpr
    intro x hx hxk
    rw [hfin] at hx
    rcases List.mem_map.mp hx with ⟨q, hq, rfl⟩
    have hq1 : q.1 = kv.1 := beq_iff_eq.mp hxk
    have hsplit2 : kvs.map Prod.fst
        = (kvs.take 1).map Prod.fst ++ (kvs.drop 1).map Prod.fst := by
      rw [← List.map_append, List.take_append_drop]
    rw [hsplit2] at hnd
    have hdis := (List.nodup_append.mp hnd).2.2
    exact hdis (List.mem_map_of_mem Prod.fst hkv)
      (hq1 ▸ List.mem_map_of_mem Prod.fst hq)

/-- When the listing loader succeeds, the subscribe-statistic endpoint is the
read-through pattern at the pagination-derived key. -/
theorem subscribe_statistic_eq (stype : String) (page cnt : Int) (db : SubDB)
    (c : TTLCache (List SubStatOut)) (now : Nat) (rows : List SubRow)
    (hok : subList db stype page cnt = Except.ok rows) :
    subscribe_statistic stype page cnt db c now
      = (Except.ok (cachedFetch c now (subKey stype page cnt) (rows.map outOfRow)
            (fun l => !l.isEmpty)).1,
         (cachedFetch c now (subKey stype page cnt) (rows.map outOfRow)
            (fun l => !l.isEmpty)).2.1,
         (cachedFetch c now (subKey stype page cnt) (rows.map outOfRow)
            (fun l => !l.isEmpty)).2.2) := by
  unfold subscribe_statistic cachedFetch
  by_cases hcond : (c.getv now (subKey stype page cnt)).elim false
      (fun l => !l.isEmpty) = true
  · simp only [hcond, if_true]
  · simp only [hcond, Bool.false_eq_true, if_false, hok]

/-- Once an empty list is stored under a subscribe-statistic key, any later
call for that key runs the loader again. -/
theorem subscribe_statistic_flag_of_stored (stype : String) (page cnt : Int)
    (dbQ : SubDB) (c : TTLCache (List SubStatOut)) (now2 : Nat) (T : Nat)
    (hf : c.entries.find? (fun e => e.key == subKey stype page cnt)
      = some ⟨subKey stype page cnt, [], T⟩) :
    (subscribe_statistic stype page cnt dbQ c now2).2.2 = true := by
  have hg := getv_find? c now2 (subKey stype page cnt) hf
  have hm : (c.getv now2 (subKey stype page cnt)).elim false
      (fun l => !l.isEmpty) = false := by
    rw [hg]
    by_cases hlt : now2 < T
    · simp only [if_pos (show now2 <
        (⟨subKey stype page cnt, [], T⟩ : TTLEntry (List SubStatOut)).expiresAt
          from hlt)]
      rfl
    · simp only [if_neg (show ¬ now2 <
        (⟨subKey stype page cnt, [], T⟩ : TTLEntry (List SubStatOut)).expiresAt
          from hlt)]
      rfl
  unfold subscribe_statistic
  simp only [hm, Bool.false_eq_true, if_false]
  split <;> rfl

/-- C8 (amended): for every key and loader, the read-through get returns a
live and non-empty (truthy) stored value unchanged without invoking the
loader; when the entry is absent, expired, or holds an empty (falsy) value —
the code tests the stored value's truthiness, not entry presence — it invokes
the loader, stores the result under the key with a fresh TTL, and returns that
result. -/
theorem cachedFetch_spec {α : Type} (c : TTLCache α) (now : Nat) (k : String)
    (load : α) (truthy : α → Bool) (hN : c.wf) (htt : 0 < c.ttl) :
    (∀ v, c.getv now k = some v → truthy v = true →
      cachedFetch c now k load truthy = (some v, c, false)) ∧
    ((c.getv now k).elim false truthy = false →
      (cachedFetch c now k load truthy).1 = some load ∧
      (cachedFetch c now k load truthy).2.2 = true ∧
      (cachedFetch c now k load truthy).2.1.entries.find? (fun e => e.key == k)
        = some ⟨k, load, now + c.ttl⟩) :=
  ⟨fun v hv ht => cachedFetch_hit load truthy hN hv ht,
   fun hm => cachedFetch_miss load truthy hN htt hm⟩

theorem cachedFetch_spec_witness :
    cachedFetch (⟨100, 1800, [⟨"plugin", [("a", 2)], 5⟩]⟩ :
        TTLCache (List (String × Int)))
      0 "plugin" [("b", 3)] (fun m => !m.isEmpty)
      = (some [("a", 2)], ⟨100, 1800, [⟨"plugin", [("a", 2)], 5⟩]⟩, false) :=
  (cachedFetch_spec
      (⟨100, 1800, [⟨"plugin", [("a", 2)], 5⟩]⟩ : TTLCache (List (String × Int)))
      0 "plugin" [("b", 3)] (fun m => !m.isEmpty)
      (by unfold TTLCache.wf; decide) (by decide)).1
    [("a", 2)] (by decide) (by decide)

/-- C10: when a cached query endpoint loads an empty result (empty mapping
for the plugin statistic, empty list for a subscription-statistic page), that
value is never served from the cache: hit detection tests the stored value for
truthiness rather than entry presence, so the loader runs, the empty value is
stored under the key, and every subsequent call for that key re-invokes the
database loader. -/
theorem empty_result_never_cached
    (dbP : PluginDB) (cP : TTLCache (List (String × Int))) (nP : Nat)
    (stype : String) (page cnt : Int) (dbS : SubDB)
    (cS : TTLCache (List SubStatOut)) (nS : Nat)
    (hWP : cP.wf) (hWS : cS.wf) (htP : 0 < cP.ttl) (htS : 0 < cS.ttl)
    (hmP : (cP.getv nP "plugin").elim false (fun m => !m.isEmpty) = false)
    (hmS : (cS.getv nS (subKey stype page cnt)).elim false
      (fun l => !l.isEmpty) = false)
    (heP : pluginMapOf dbP = [])
    (heS : subList dbS stype page cnt = Except.ok []) :
    (plugin_statistic dbP cP nP).2.2 = true ∧
    (plugin_statistic dbP cP nP).2.1.entries.find? (fun e => e.key == "plugin")
      = some ⟨"plugin", [], nP + cP.ttl⟩ ∧
    (∀ dbQ nQ, (plugin_statistic dbQ (plugin_statistic dbP cP nP).2.1 nQ).2.2
      = true) ∧
    (subscribe_statistic stype page cnt dbS cS nS).2.2 = true ∧
    (subscribe_statistic stype page cnt dbS cS nS).2.1.entries.find?
        (fun e => e.key == subKey stype page cnt)
      = some ⟨subKey stype page cnt, [], nS + cS.ttl⟩ ∧
    (∀ dbQ nQ, (subscribe_statistic stype page cnt dbQ
        (subscribe_statistic stype page cnt dbS cS nS).2.1 nQ).2.2 = true) := by
  have h1 := cachedFetch_miss (pluginMapOf dbP) (fun m => !m.isEmpty) hWP htP hmP
  have hfP : (plugin_statistic dbP cP nP).2.1.entries.find?
      (fun e => e.key == "plugin") = some ⟨"plugin", [], nP + cP.ttl⟩ :=
    heP ▸ h1.2.2
  have heq := subscribe_statistic_eq stype page cnt dbS cS nS [] heS
  have h2 := cachedFetch_miss (α := List SubStatOut)
    (([] : List SubRow).map outOfRow) (fun l => !l.isEmpty) hWS htS hmS
  have hfS : (subscribe_statistic stype page cnt dbS cS nS).2.1.entries.find?
      (fun e => e.key == subKey stype page cnt)
      = some ⟨subKey stype page cnt, [], nS + cS.ttl⟩ := by
    rw [heq]
    exact h2.2.2
  refine ⟨h1.2.1, hfP, ?_, ?_, hfS, ?_⟩
  · intro dbQ nQ
    exact flag_of_stored (pluginMapOf dbQ) (fun m => !m.isEmpty) hfP rfl nQ
  · rw [heq]
    exact h2.2.1
  · intro dbQ nQ
    exact subscribe_statistic_flag_of_stored stype page cnt dbQ _ nQ
      (nS + cS.ttl) hfS

/-- C8 counterexample: with an empty database the plugin loader result is the
empty mapping; it is stored at time 0 with TTL 1800, yet a second read at time
1 — strictly before load time plus TTL — invokes the loader again, because the
hit test is value truthiness.  So a get strictly before expiry does not always
return the stored value without invoking the loader. -/
theorem cache_empty_value_reloaded :
    (plugin_statistic [] ⟨100, 1800, []⟩ 0).2.2 = true ∧
    ((plugin_statistic [] ⟨100, 1800, []⟩ 0).2.1).getv 1 "plugin" = some [] ∧
    (1 : Nat) < 0 + 1800 ∧
    (plugin_statistic [] (plugin_statistic [] ⟨100, 1800, []⟩ 0).2.1 1).2.2
      = true := by
  decide

/-- C9 witness: capacity 2, TTL 5, three distinct keys inserted at time 0; two
live entries remain and the first-inserted key misses. -/
theorem cache_capacity_boundary_witness :
    (insertAll (⟨2, 5, []⟩ : TTLCache Nat) 0
      [("a", 0), ("b", 1), ("c", 2)]).entries.length = 2 ∧
    (insertAll (⟨2, 5, []⟩ : TTLCache Nat) 0
      [("a", 0), ("b", 1), ("c", 2)]).getv 0 "a" = none :=
  ⟨(cache_capacity_boundary 2 5 0 [("a", 0), ("b", 1), ("c", 2)] (by decide)
      (by decide) (by decide) (by decide)).2.1,
   (cache_capacity_boundary 2 5 0 [("a", 0), ("b", 1), ("c", 2)] (by decide)
      (by decide) (by decide) (by decide)).2.2.2 ("a", 0) (by decide)⟩

/-- C10 witness: both endpoints against empty stores and empty caches at time
0 — each loads an empty result and reports the loader as invoked. -/
theorem empty_result_never_cached_witness :
    (plugin_statistic [] ⟨100, 1800, []⟩ 0).2.2 = true ∧
    (subscribe_statistic "movie" 1 30 ⟨[], 0⟩ ⟨100, 1800, []⟩ 0).2.2 = true :=
  ⟨(empty_result_never_cached [] ⟨100, 1800, []⟩ 0 "movie" 1 30 ⟨[], 0⟩
      ⟨100, 1800, []⟩ 0 (by unfold TTLCache.wf; decide)
      (by unfold TTLCache.wf; decide) (by decide) (by decide) (by decide)
      (by decide) rfl rfl).1,
   (empty_result_never_cached [] ⟨100, 1800, []⟩ 0 "movie" 1 30 ⟨[], 0⟩
      ⟨100, 1800, []⟩ 0 (by unfold TTLCache.wf; decide)
      (by unfold TTLCache.wf; decide) (by decide) (by decide) (by decide)
      (by decide) rfl rfl).2.2.2.1⟩
